import Mathlib

/-!
Verification of the core geometry, visibility and movement model of the
shadow game (`run_game.py`).

Modelling conventions:
* pygame's `Vector2` (a pair of floats) is embedded as a pair of rationals
  `Vec`; the program's float formulas are interpreted exactly over `ℚ`.
* Euclidean lengths and distances (the only places the program takes a
  square root) are represented as follows:
  - `line_segment_dist` is embedded as `line_segment_dist_sq`, the square
    of the source's return value.  The program only compares this distance
    against a nonnegative constant (`hitbox_radius`), and `d < r ↔ d² < r²`
    for nonnegative `d`, `r`, so comparisons are squared accordingly.
  - `Vector2.length()` (used by `Movable.move` for `scale_to_length`, and
    by `line_of_sight_polygon` for `4500 / ray.length()`) is modelled by an
    explicit length oracle argument `len : Vec → ℚ`; theorems hypothesise
    or verify `0 ≤ len v ∧ (len v)² = sqLen v` on the vectors that occur.
* Python object identity (`is` on obstacles) is modelled by the index of
  the obstacle in the obstacle list.
-/

@[ext]
structure Vec where
  x : ℚ
  y : ℚ
deriving DecidableEq

instance : Add Vec := ⟨fun a b => ⟨a.x + b.x, a.y + b.y⟩⟩

instance : Sub Vec := ⟨fun a b => ⟨a.x - b.x, a.y - b.y⟩⟩

instance : SMul ℚ Vec := ⟨fun q v => ⟨q * v.x, q * v.y⟩⟩

@[simp]
theorem Vec.add_x (a b : Vec) : (a + b).x = a.x + b.x := rfl

@[simp]
theorem Vec.add_y (a b : Vec) : (a + b).y = a.y + b.y := rfl

@[simp]
theorem Vec.sub_x (a b : Vec) : (a - b).x = a.x - b.x := rfl

@[simp]
theorem Vec.sub_y (a b : Vec) : (a - b).y = a.y - b.y := rfl

@[simp]
theorem Vec.smul_x (q : ℚ) (v : Vec) : (q • v).x = q * v.x := rfl

@[simp]
theorem Vec.smul_y (q : ℚ) (v : Vec) : (q • v).y = q * v.y := rfl

/-- Dot product, `pygame.Vector2.dot` (also written `*` on vectors in the
source). -/
def Vec.dot (a b : Vec) : ℚ := a.x * b.x + a.y * b.y

/-- 2D cross product (the scalar z-component), `pygame.Vector2.cross`. -/
def Vec.cross (a b : Vec) : ℚ := a.x * b.y - a.y * b.x

/-- Squared Euclidean length, `pygame.Vector2.length_squared`. -/
def Vec.sqLen (v : Vec) : ℚ := v.x * v.x + v.y * v.y

theorem Vec.sqLen_eq_zero_iff (v : Vec) : v.sqLen = 0 ↔ v = ⟨0, 0⟩ := by
  unfold Vec.sqLen
  constructor
  · intro h
    have hx : v.x * v.x = 0 :=
      le_antisymm (by linarith [mul_self_nonneg v.y]) (mul_self_nonneg v.x)
    have hy : v.y * v.y = 0 :=
      le_antisymm (by linarith [mul_self_nonneg v.x]) (mul_self_nonneg v.y)
    ext
    · exact mul_self_eq_zero.mp hx
    · exact mul_self_eq_zero.mp hy
  · intro h
    subst h
    simp

theorem Vec.sub_ne_zero_vec {a b : Vec} (h : a ≠ b) : b - a ≠ ⟨0, 0⟩ := by
  intro hc
  apply h
  have hx := congrArg Vec.x hc
  have hy := congrArg Vec.y hc
  simp at hx hy
  ext
  · linarith
  · linarith

theorem Vec.sqLen_smul (q : ℚ) (v : Vec) : (q • v).sqLen = q ^ 2 * v.sqLen := by
  simp [Vec.sqLen]
  ring

/-- An obstacle line segment (`Obstacle` in the source: two endpoints). -/
structure Obstacle where
  start_pos : Vec
  end_pos : Vec
deriving DecidableEq

/-- Source `intersect_ray_line(origin, direction, p1, p2)`: solves the 2×2
linear system for the ray `origin + t1*direction` meeting the segment
`p1 + t2*(p2-p1)`; `None` when the denominator is below `epsilon = 0.00001`
in absolute value, or `t1 < 0`, or `t2` outside `[0, 1]`. -/
def intersect_ray_line (origin direction p1 p2 : Vec) : Option (ℚ × ℚ) :=
  let epsilon : ℚ := 1 / 100000
  let v1 := origin - p1
  let v2 := p2 - p1
  let v3 : Vec := ⟨-direction.y, direction.x⟩
  let dot := v2.dot v3
  if |dot| < epsilon then none
  else
    let t1 := v2.cross v1 / dot
    let t2 := v1.dot v3 / dot
    if 0 ≤ t1 ∧ 0 ≤ t2 ∧ t2 ≤ 1 then some (t1, t2) else none

/-- Source `line_segment_dist(a, b, p)`, except that the final
`.length()` is replaced by `.length_squared()`: this models the squared
distance from the segment `a`-`b` to `p` (see the header comment). -/
def line_segment_dist_sq (a b p : Vec) : ℚ :=
  let a_to_b := b - a
  let norm := a_to_b.dot a_to_b
  let u := (p - a).dot a_to_b / norm
  let u2 := max 0 (min 1 u)
  (a + u2 • a_to_b - p).sqLen

/-- A movable entity: `Movable` in the source (position, `speed`, and the
class attribute `hitbox_radius`). -/
structure Movable where
  pos : Vec
  speed : ℚ
  hitbox_radius : ℚ

/-- The player: `hitbox_radius = 10`, `speed = 1.75`. -/
def player_movable (pos : Vec) : Movable := ⟨pos, 7 / 4, 10⟩

/-- A light source: `hitbox_radius = 5`, `speed = 1.0`. -/
def light_movable (pos : Vec) : Movable := ⟨pos, 1, 5⟩

/-- A generic movable: `hitbox_radius = 3`, default `speed = 2.0`. -/
def generic_movable (pos : Vec) : Movable := ⟨pos, 2, 3⟩

/-- Source `Movable.move(direction, obstacles)`.  Returns the pair
(new position, final value of the mutated `direction` argument); the
mutation performed in place by `scale_to_length` is made explicit in the
second component.  `len` stands for the float `direction.length()`
(length oracle, see header); the collision test compares squared
distances against the squared hitbox radius. -/
def Movable.move (m : Movable) (direction : Vec) (len : ℚ) (obstacles : List Obstacle) :
    Vec × Vec :=
  if 0 < len then
    let direction2 := (m.speed / len) • direction
    let new_pos := m.pos + direction2
    if obstacles.any fun o =>
        decide (line_segment_dist_sq o.start_pos o.end_pos new_pos < m.hitbox_radius ^ 2) then
      (m.pos, direction2)
    else
      (new_pos, direction2)
  else
    (m.pos, direction)

/-- The denominator of the 2×2 system solved by `intersect_ray_line`. -/
def ray_denom (direction p1 p2 : Vec) : ℚ :=
  (p2 - p1).dot ⟨-direction.y, direction.x⟩

/-- The ray parameter `t1` computed by `intersect_ray_line`. -/
def ray_t1 (origin direction p1 p2 : Vec) : ℚ :=
  (p2 - p1).cross (origin - p1) / ray_denom direction p1 p2

/-- The segment parameter `t2` computed by `intersect_ray_line`. -/
def ray_t2 (origin direction p1 p2 : Vec) : ℚ :=
  (origin - p1).dot ⟨-direction.y, direction.x⟩ / ray_denom direction p1 p2

theorem lin_solve_x (ox oy dx dy ax ay bx bY : ℚ)
    (hd : (bx - ax) * -dy + (bY - ay) * dx ≠ 0) :
    ox + ((bx - ax) * (oy - ay) - (bY - ay) * (ox - ax)) /
        ((bx - ax) * -dy + (bY - ay) * dx) * dx =
      ax + ((ox - ax) * -dy + (oy - ay) * dx) /
        ((bx - ax) * -dy + (bY - ay) * dx) * (bx - ax) := by
  have h1 : ((bx - ax) * (oy - ay) - (bY - ay) * (ox - ax)) /
      ((bx - ax) * -dy + (bY - ay) * dx) * ((bx - ax) * -dy + (bY - ay) * dx) =
      (bx - ax) * (oy - ay) - (bY - ay) * (ox - ax) := div_mul_cancel₀ _ hd
  have h2 : ((ox - ax) * -dy + (oy - ay) * dx) /
      ((bx - ax) * -dy + (bY - ay) * dx) * ((bx - ax) * -dy + (bY - ay) * dx) =
      (ox - ax) * -dy + (oy - ay) * dx := div_mul_cancel₀ _ hd
  apply mul_right_cancel₀ hd
  calc (ox + ((bx - ax) * (oy - ay) - (bY - ay) * (ox - ax)) /
          ((bx - ax) * -dy + (bY - ay) * dx) * dx) * ((bx - ax) * -dy + (bY - ay) * dx)
      = ox * ((bx - ax) * -dy + (bY - ay) * dx) +
          (((bx - ax) * (oy - ay) - (bY - ay) * (ox - ax)) /
            ((bx - ax) * -dy + (bY - ay) * dx) * ((bx - ax) * -dy + (bY - ay) * dx)) * dx := by
        ring
    _ = ox * ((bx - ax) * -dy + (bY - ay) * dx) +
          ((bx - ax) * (oy - ay) - (bY - ay) * (ox - ax)) * dx := by rw [h1]
    _ = ax * ((bx - ax) * -dy + (bY - ay) * dx) +
          ((ox - ax) * -dy + (oy - ay) * dx) * (bx - ax) := by ring
    _ = ax * ((bx - ax) * -dy + (bY - ay) * dx) +
          (((ox - ax) * -dy + (oy - ay) * dx) /
            ((bx - ax) * -dy + (bY - ay) * dx) * ((bx - ax) * -dy + (bY - ay) * dx)) * (bx - ax) := by
        rw [h2]
    _ = (ax + ((ox - ax) * -dy + (oy - ay) * dx) /
          ((bx - ax) * -dy + (bY - ay) * dx) * (bx - ax)) * ((bx - ax) * -dy + (bY - ay) * dx) := by
        ring

theorem lin_solve_y (ox oy dx dy ax ay bx bY : ℚ)
    (hd : (bx - ax) * -dy + (bY - ay) * dx ≠ 0) :
    oy + ((bx - ax) * (oy - ay) - (bY - ay) * (ox - ax)) /
        ((bx - ax) * -dy + (bY - ay) * dx) * dy =
      ay + ((ox - ax) * -dy + (oy - ay) * dx) /
        ((bx - ax) * -dy + (bY - ay) * dx) * (bY - ay) := by
  have h1 : ((bx - ax) * (oy - ay) - (bY - ay) * (ox - ax)) /
      ((bx - ax) * -dy + (bY - ay) * dx) * ((bx - ax) * -dy + (bY - ay) * dx) =
      (bx - ax) * (oy - ay) - (bY - ay) * (ox - ax) := div_mul_cancel₀ _ hd
  have h2 : ((ox - ax) * -dy + (oy - ay) * dx) /
      ((bx - ax) * -dy + (bY - ay) * dx) * ((bx - ax) * -dy + (bY - ay) * dx) =
      (ox - ax) * -dy + (oy - ay) * dx := div_mul_cancel₀ _ hd
  apply mul_right_cancel₀ hd
  calc (oy + ((bx - ax) * (oy - ay) - (bY - ay) * (ox - ax)) /
          ((bx - ax) * -dy + (bY - ay) * dx) * dy) * ((bx - ax) * -dy + (bY - ay) * dx)
      = oy * ((bx - ax) * -dy + (bY - ay) * dx) +
          (((bx - ax) * (oy - ay) - (bY - ay) * (ox - ax)) /
            ((bx - ax) * -dy + (bY - ay) * dx) * ((bx - ax) * -dy + (bY - ay) * dx)) * dy := by
        ring
    _ = oy * ((bx - ax) * -dy + (bY - ay) * dx) +
          ((bx - ax) * (oy - ay) - (bY - ay) * (ox - ax)) * dy := by rw [h1]
    _ = ay * ((bx - ax) * -dy + (bY - ay) * dx) +
          ((ox - ax) * -dy + (oy - ay) * dx) * (bY - ay) := by ring
    _ = ay * ((bx - ax) * -dy + (bY - ay) * dx) +
          (((ox - ax) * -dy + (oy - ay) * dx) /
            ((bx - ax) * -dy + (bY - ay) * dx) * ((bx - ax) * -dy + (bY - ay) * dx)) * (bY - ay) := by
        rw [h2]
    _ = (ay + ((ox - ax) * -dy + (oy - ay) * dx) /
          ((bx - ax) * -dy + (bY - ay) * dx) * (bY - ay)) * ((bx - ax) * -dy + (bY - ay) * dx) := by
        ring

/-- Claim C1: for non-degenerate rays and segments, `intersect_ray_line`
returns `none` exactly when the denominator is below epsilon `1e-5` in
absolute value, or `t1 < 0`, or `t2` lies outside `[0, 1]`; otherwise it
returns `(t1, t2)` with `t1 ≥ 0`, `t2 ∈ [0, 1]` and
`origin + t1*direction = p1 + t2*(p2-p1)` (exactly, in the rational
model of the float arithmetic). -/
theorem intersect_ray_line_characterization (origin direction p1 p2 : Vec)
    (hdir : direction ≠ ⟨0, 0⟩) (hseg : p1 ≠ p2) :
    (intersect_ray_line origin direction p1 p2 = none ↔
      |ray_denom direction p1 p2| < 1 / 100000 ∨
      ray_t1 origin direction p1 p2 < 0 ∨
      ray_t2 origin direction p1 p2 < 0 ∨
      1 < ray_t2 origin direction p1 p2) ∧
    (∀ t1 t2, intersect_ray_line origin direction p1 p2 = some (t1, t2) →
      t1 = ray_t1 origin direction p1 p2 ∧ t2 = ray_t2 origin direction p1 p2 ∧
      0 ≤ t1 ∧ 0 ≤ t2 ∧ t2 ≤ 1 ∧
      origin + t1 • direction = p1 + t2 • (p2 - p1)) := by
  simp only [intersect_ray_line]
  split_ifs with hpar hcond
  · refine ⟨iff_of_true rfl (Or.inl (by simpa [ray_denom] using hpar)), ?_⟩
    intro t1 t2 h
    exact absurd h (by simp)
  · have hd0 : (p2 - p1).dot ⟨-direction.y, direction.x⟩ ≠ 0 := by
      intro h
      exact hpar (by simp [h])
    refine ⟨iff_of_false (by simp) ?_, ?_⟩
    · intro hcontra
      rcases hcontra with h | h | h | h
      · exact hpar (by simpa [ray_denom] using h)
      · exact absurd h (not_lt.mpr (by simpa [ray_t1, ray_denom] using hcond.1))
      · exact absurd h (not_lt.mpr (by simpa [ray_t2, ray_denom] using hcond.2.1))
      · exact absurd h (not_lt.mpr (by simpa [ray_t2, ray_denom] using hcond.2.2))
    · intro t1 t2 h
      simp only [Option.some.injEq, Prod.mk.injEq] at h
      obtain ⟨ht1, ht2⟩ := h
      subst ht1
      subst ht2
      refine ⟨by simp [ray_t1, ray_denom], by simp [ray_t2, ray_denom],
        hcond.1, hcond.2.1, hcond.2.2, ?_⟩
      have hd0c : (p2.x - p1.x) * -direction.y + (p2.y - p1.y) * direction.x ≠ 0 := by
        intro h
        exact hd0 (by simpa [Vec.dot] using h)
      ext
      · exact lin_solve_x origin.x origin.y direction.x direction.y p1.x p1.y p2.x p2.y hd0c
      · exact lin_solve_y origin.x origin.y direction.x direction.y p1.x p1.y p2.x p2.y hd0c
  · refine ⟨iff_of_true rfl ?_, ?_⟩
    · rcases not_and_or.mp hcond with h | h
      · exact Or.inr (Or.inl (by simpa [ray_t1, ray_denom] using not_le.mp h))
      · rcases not_and_or.mp h with h2 | h2
        · exact Or.inr (Or.inr (Or.inl (by simpa [ray_t2, ray_denom] using not_le.mp h2)))
        · exact Or.inr (Or.inr (Or.inr (by simpa [ray_t2, ray_denom] using not_le.mp h2)))
    · intro t1 t2 h
      exact absurd h (by simp)

unseal Rat.add Rat.mul Rat.sub Rat.inv in
/-- Witness for C1 at a concrete input: ray from the origin along the
positive x-axis against the vertical segment from `(2,-1)` to `(2,1)`. -/
theorem intersect_ray_line_characterization_witness :
    ((⟨1, 0⟩ : Vec) ≠ ⟨0, 0⟩) ∧ ((⟨2, -1⟩ : Vec) ≠ ⟨2, 1⟩) ∧
    (∀ t1 t2, intersect_ray_line ⟨0, 0⟩ ⟨1, 0⟩ ⟨2, -1⟩ ⟨2, 1⟩ = some (t1, t2) →
      t1 = ray_t1 ⟨0, 0⟩ ⟨1, 0⟩ ⟨2, -1⟩ ⟨2, 1⟩ ∧ t2 = ray_t2 ⟨0, 0⟩ ⟨1, 0⟩ ⟨2, -1⟩ ⟨2, 1⟩ ∧
      0 ≤ t1 ∧ 0 ≤ t2 ∧ t2 ≤ 1 ∧
      (⟨0, 0⟩ : Vec) + t1 • (⟨1, 0⟩ : Vec) = (⟨2, -1⟩ : Vec) + t2 • ((⟨2, 1⟩ : Vec) - ⟨2, -1⟩)) :=
  ⟨by decide, by decide,
    (intersect_ray_line_characterization ⟨0, 0⟩ ⟨1, 0⟩ ⟨2, -1⟩ ⟨2, 1⟩
      (by decide) (by decide)).2⟩


/-- Claim C2: `Movable.move` leaves the position unchanged when the
requested direction has zero length; otherwise the direction is scaled to
exactly `speed` units (squared length `speed²`) and the move is rejected
(position unchanged) if and only if some obstacle segment is closer than
`hitbox_radius` to the candidate position; a candidate at distance at
least `hitbox_radius` from every obstacle is accepted.  Distances are
compared squared (see header). -/
theorem move_collision_rule (m : Movable) (d : Vec) (len : ℚ) (obstacles : List Obstacle)
    (hr : 0 ≤ m.hitbox_radius) (hlen0 : 0 ≤ len) (hlen : len ^ 2 = d.sqLen) :
    (d.sqLen = 0 → (m.move d len obstacles).1 = m.pos) ∧
    (d.sqLen ≠ 0 →
      ((m.speed / len) • d).sqLen = m.speed ^ 2 ∧
      (m.move d len obstacles).1 =
        if ∃ o ∈ obstacles,
            line_segment_dist_sq o.start_pos o.end_pos (m.pos + (m.speed / len) • d) <
              m.hitbox_radius ^ 2
        then m.pos
        else m.pos + (m.speed / len) • d) := by
  constructor
  · intro h0
    have hsq : len ^ 2 = 0 := hlen.trans h0
    have hl : len = 0 := pow_eq_zero_iff (by norm_num) |>.mp hsq
    simp [Movable.move, hl]
  · intro hne
    have hl : len ≠ 0 := by
      intro h
      apply hne
      rw [← hlen, h]
      ring
    have hpos : 0 < len := lt_of_le_of_ne hlen0 (Ne.symm hl)
    constructor
    · rw [Vec.sqLen_smul, ← hlen, div_pow, div_mul_cancel₀ _ (pow_ne_zero 2 hl)]
    · simp only [Movable.move]
      rw [if_pos hpos]
      simp only [List.any_eq_true, decide_eq_true_eq]
      split_ifs with h
      · rfl
      · rfl

unseal Rat.add Rat.mul Rat.sub Rat.inv in
/-- Witness for C2: the player at its starting position, direction
`(3, 4)` of length `5`, against the first obstacle of the game scene. -/
theorem move_collision_rule_witness :
    (0 ≤ (player_movable ⟨20, 500⟩).hitbox_radius) ∧ (0 ≤ (5 : ℚ)) ∧
    ((5 : ℚ) ^ 2 = (⟨3, 4⟩ : Vec).sqLen) ∧
    (((⟨3, 4⟩ : Vec).sqLen = 0 →
      ((player_movable ⟨20, 500⟩).move ⟨3, 4⟩ 5 [⟨⟨1, 550⟩, ⟨601, 550⟩⟩]).1 =
        (player_movable ⟨20, 500⟩).pos) ∧
    ((⟨3, 4⟩ : Vec).sqLen ≠ 0 →
      (((player_movable ⟨20, 500⟩).speed / 5) • (⟨3, 4⟩ : Vec)).sqLen =
        (player_movable ⟨20, 500⟩).speed ^ 2 ∧
      ((player_movable ⟨20, 500⟩).move ⟨3, 4⟩ 5 [⟨⟨1, 550⟩, ⟨601, 550⟩⟩]).1 =
        if ∃ o ∈ [(⟨⟨1, 550⟩, ⟨601, 550⟩⟩ : Obstacle)],
            line_segment_dist_sq o.start_pos o.end_pos
              ((player_movable ⟨20, 500⟩).pos +
                ((player_movable ⟨20, 500⟩).speed / 5) • (⟨3, 4⟩ : Vec)) <
              (player_movable ⟨20, 500⟩).hitbox_radius ^ 2
        then (player_movable ⟨20, 500⟩).pos
        else (player_movable ⟨20, 500⟩).pos +
          ((player_movable ⟨20, 500⟩).speed / 5) • (⟨3, 4⟩ : Vec))) :=
  ⟨by decide, by decide, by decide,
    move_collision_rule (player_movable ⟨20, 500⟩) ⟨3, 4⟩ 5 [⟨⟨1, 550⟩, ⟨601, 550⟩⟩]
      (by decide) (by decide) (by decide)⟩

/-- Claim C10: `Movable.move` rescales its `direction` argument in place
whenever the requested direction has nonzero length: the final value of
the caller's vector is the scaled vector of squared length `speed²`, and
this happens independently of the obstacle list, in particular also when
the move itself is rejected by the collision check. -/
theorem move_mutates_direction (m : Movable) (d : Vec) (len : ℚ)
    (obstacles obstacles2 : List Obstacle)
    (hlen0 : 0 ≤ len) (hlen : len ^ 2 = d.sqLen) (hne : d.sqLen ≠ 0) :
    (m.move d len obstacles).2 = (m.speed / len) • d ∧
    ((m.move d len obstacles).2).sqLen = m.speed ^ 2 ∧
    (m.move d len obstacles).2 = (m.move d len obstacles2).2 := by
  have hl : len ≠ 0 := by
    intro h
    apply hne
    rw [← hlen, h]
    ring
  have hpos : 0 < len := lt_of_le_of_ne hlen0 (Ne.symm hl)
  have hsnd : ∀ obs : List Obstacle, (m.move d len obs).2 = (m.speed / len) • d := by
    intro obs
    simp only [Movable.move]
    rw [if_pos hpos]
    split_ifs
    · rfl
    · rfl
  refine ⟨hsnd obstacles, ?_, (hsnd obstacles).trans (hsnd obstacles2).symm⟩
  rw [hsnd obstacles, Vec.sqLen_smul, ← hlen, div_pow, div_mul_cancel₀ _ (pow_ne_zero 2 hl)]

unseal Rat.add Rat.mul Rat.sub Rat.inv in
/-- Witness for C10: the light source pushed straight at a wall (the move
is rejected there) still has its direction vector rescaled. -/
theorem move_mutates_direction_witness :
    (0 ≤ (2 : ℚ)) ∧ ((2 : ℚ) ^ 2 = (⟨2, 0⟩ : Vec).sqLen) ∧ ((⟨2, 0⟩ : Vec).sqLen ≠ 0) ∧
    (((light_movable ⟨3, 0⟩).move ⟨2, 0⟩ 2 [⟨⟨5, -10⟩, ⟨5, 10⟩⟩]).2 =
      ((light_movable ⟨3, 0⟩).speed / 2) • (⟨2, 0⟩ : Vec) ∧
    (((light_movable ⟨3, 0⟩).move ⟨2, 0⟩ 2 [⟨⟨5, -10⟩, ⟨5, 10⟩⟩]).2).sqLen =
      (light_movable ⟨3, 0⟩).speed ^ 2 ∧
    ((light_movable ⟨3, 0⟩).move ⟨2, 0⟩ 2 [⟨⟨5, -10⟩, ⟨5, 10⟩⟩]).2 =
      ((light_movable ⟨3, 0⟩).move ⟨2, 0⟩ 2 []).2) :=
  ⟨by decide, by decide, by decide,
    move_mutates_direction (light_movable ⟨3, 0⟩) ⟨2, 0⟩ 2 [⟨⟨5, -10⟩, ⟨5, 10⟩⟩] []
      (by decide) (by decide) (by decide)⟩

/-- The unclamped projection parameter of `p` onto the infinite line
through `a` and `b` (the spec's description of `u`). -/
def proj_param (a b p : Vec) : ℚ := (p - a).dot (b - a) / (b - a).sqLen

/-- Claim C9: for `a ≠ b`, `line_segment_dist` computes the distance from
`p` to the point `a + u*(b-a)` where `u` is the projection parameter of
`p` onto the infinite line through `a` and `b` clamped to `[0, 1]`, and
the division (by the squared segment length) is never by zero.  Stated
for the squared distance (see header). -/
theorem line_segment_dist_sq_projection (a b p : Vec) (h : a ≠ b) :
    (b - a).sqLen ≠ 0 ∧
    line_segment_dist_sq a b p =
      ((a + (max 0 (min 1 (proj_param a b p))) • (b - a)) - p).sqLen := by
  have hnz : (b - a).sqLen ≠ 0 := by
    intro hz
    exact Vec.sub_ne_zero_vec h ((Vec.sqLen_eq_zero_iff _).mp hz)
  exact ⟨hnz, rfl⟩

unseal Rat.add Rat.mul Rat.sub Rat.inv in
/-- Witness for C9 at the first obstacle of the game scene and the
player's starting position. -/
theorem line_segment_dist_sq_projection_witness :
    ((⟨1, 550⟩ : Vec) ≠ ⟨601, 550⟩) ∧
    (((⟨601, 550⟩ : Vec) - ⟨1, 550⟩).sqLen ≠ 0 ∧
    line_segment_dist_sq ⟨1, 550⟩ ⟨601, 550⟩ ⟨20, 500⟩ =
      (((⟨1, 550⟩ : Vec) +
        (max 0 (min 1 (proj_param ⟨1, 550⟩ ⟨601, 550⟩ ⟨20, 500⟩))) •
          ((⟨601, 550⟩ : Vec) - ⟨1, 550⟩)) - ⟨20, 500⟩).sqLen) :=
  ⟨by decide, line_segment_dist_sq_projection ⟨1, 550⟩ ⟨601, 550⟩ ⟨20, 500⟩ (by decide)⟩

/-- Python's `round` applied exactly to a rational: round half to even. -/
def pythonRound (q : ℚ) : ℤ :=
  if q - ⌊q⌋ < 1 / 2 then ⌊q⌋
  else if 1 / 2 < q - ⌊q⌋ then ⌊q⌋ + 1
  else if ⌊q⌋ % 2 = 0 then ⌊q⌋ else ⌊q⌋ + 1

/-- Rounding of the light position performed first by
`line_of_sight_polygon`: `Vector2(round(self.pos.x), round(self.pos.y))`. -/
def round_vec (v : Vec) : Vec := ⟨(pythonRound v.x : ℤ), (pythonRound v.y : ℤ)⟩

/-- Angular region of a vector, listed in increasing order of the polar
angle `atan2(y, x)` in `(-180, 180]` degrees: the four open quadrants and
the four half-axes (the zero vector has `atan2(0, 0) = 0` and lies in
region 3 with the positive x-axis). -/
def quadrant (v : Vec) : ℕ :=
  if v.x < 0 ∧ v.y < 0 then 0
  else if v.x = 0 ∧ v.y < 0 then 1
  else if 0 < v.x ∧ v.y < 0 then 2
  else if 0 ≤ v.x ∧ v.y = 0 then 3
  else if 0 < v.x ∧ 0 < v.y then 4
  else if v.x = 0 ∧ 0 < v.y then 5
  else if v.x < 0 ∧ 0 < v.y then 6
  else 7

/-- Strict comparison by polar angle `atan2(y, x)` (degrees in
`(-180, 180]`), the sort key `v.as_polar()[1]` of the source's
`ends.sort`: region order first, and inside an open quadrant the angle
order equals the slope order, decided exactly by cross multiplication
(within a region both `x` signs agree, so no division is needed).  On a
half-axis two vectors share their angle and compare equal (the cross
term is `0 < 0`). -/
def angLt (u v : Vec) : Bool :=
  decide (quadrant u < quadrant v) ||
    (decide (quadrant u = quadrant v) && decide (u.y * v.x < v.y * u.x))

/-- Insertion of `x` into a sorted list, after every element that does
not strictly follow it. -/
def orderedInsert (lt : Vec → Vec → Bool) (x : Vec) : List Vec → List Vec
  | [] => [x]
  | y :: ys => if lt x y then x :: y :: ys else y :: orderedInsert lt x ys

/-- Stable sort by a strict comparison: equal-keyed elements keep their
original relative order, as Python's `list.sort` guarantees. -/
def stableSort (lt : Vec → Vec → Bool) (l : List Vec) : List Vec :=
  l.foldl (fun acc x => orderedInsert lt x acc) []

/-- The ray list built by `line_of_sight_polygon`: both endpoints of every
obstacle, relative to the (rounded) light position, in obstacle order. -/
def ends_of (pos : Vec) (obstacles : List Obstacle) : List Vec :=
  obstacles.foldr (fun obs acc => (obs.start_pos - pos) :: (obs.end_pos - pos) :: acc) []

/-- The inner loop of `line_of_sight_polygon` over the obstacle list
(paired with indices, which model Python object identity): endpoint hits
(`t2 == 0 or t2 == 1`, the source's `t2 in (0, 1)` tuple-membership test)
are collected into `iends` with their `t1`; an interior hit closer than
`min_dist` updates `nearest` and `min_dist`. -/
def ray_scan (pos ray : Vec) (lines : List (ℕ × Obstacle)) (nearest : Option ℕ)
    (min_dist : ℚ) (iends : List (ℕ × ℚ)) : Option ℕ × ℚ × List (ℕ × ℚ) :=
  match lines with
  | [] => (nearest, min_dist, iends)
  | (i, line) :: rest =>
    match intersect_ray_line pos ray line.start_pos line.end_pos with
    | none => ray_scan pos ray rest nearest min_dist iends
    | some (t1, t2) =>
      if t2 = 0 ∨ t2 = 1 then ray_scan pos ray rest nearest min_dist (iends ++ [(i, t1)])
      else if t1 < min_dist then ray_scan pos ray rest (some i) t1 iends
      else ray_scan pos ray rest nearest min_dist iends

/-- The `closest_obs_end` selection loop of `line_of_sight_polygon`:
first endpoint hit strictly below the running distance wins. -/
def closest_end (iends : List (ℕ × ℚ)) (closest : Option ℕ) (closest_dist : ℚ) :
    Option ℕ × ℚ :=
  match iends with
  | [] => (closest, closest_dist)
  | (i, t1) :: rest =>
    if t1 < closest_dist then closest_end rest (some i) t1
    else closest_end rest closest closest_dist

/-- Processing of one ray by `line_of_sight_polygon`: the emitted polygon
points and the new `on_obstacle`.  `min_dist` starts at `4500 / len ray`
(`len` is the length oracle, see header). -/
def ray_step (len : Vec → ℚ) (pos : Vec) (lines : List (ℕ × Obstacle)) (ray : Vec)
    (on_obstacle : Option ℕ) : List Vec × Option ℕ :=
  let scanned := ray_scan pos ray lines none (4500 / len ray) []
  let nearest_obs := scanned.1
  let min_dist := scanned.2.1
  let closest := closest_end scanned.2.2 none min_dist
  match closest.1 with
  | none => ([pos + min_dist • ray], nearest_obs)
  | some i =>
    if some i = on_obstacle then
      ([pos + closest.2 • ray, pos + min_dist • ray], nearest_obs)
    else
      ([pos + min_dist • ray, pos + closest.2 • ray], some i)

/-- The sweep loop of `line_of_sight_polygon` over the sorted rays,
threading the accumulated polygon, `on_obstacle` and `first_obstacle`
(`first_obstacle` is re-assigned while it is still `none`, exactly as in
the source).  Returns `none` when a ray of zero length is reached: there
the source raises `ZeroDivisionError` computing `4500 / ray.length()`. -/
def sweep (len : Vec → ℚ) (pos : Vec) (lines : List (ℕ × Obstacle)) :
    List Vec → List Vec → Option ℕ → Option ℕ →
    Option (List Vec × Option ℕ × Option ℕ)
  | [], poly, on_obstacle, first_obstacle => some (poly, on_obstacle, first_obstacle)
  | ray :: rest, poly, on_obstacle, first_obstacle =>
    if len ray = 0 then none
    else
      let step := ray_step len pos lines ray on_obstacle
      sweep len pos lines rest (poly ++ step.1) step.2
        (if first_obstacle = none then step.2 else first_obstacle)

/-- The final fix-up `poly[0:2] = poly[1::-1]`: swap the first two points
(no effect on shorter lists). -/
def swapFirstTwo : List Vec → List Vec
  | a :: b :: rest => b :: a :: rest
  | l => l

/-- The obstacle list paired with indices (modelling object identity). -/
def indexed (obstacles : List Obstacle) : List (ℕ × Obstacle) := obstacles.enum

/-- Source `LightSource.line_of_sight_polygon(obstacles)` for a light at
`self_pos`: round the position, sort the endpoint rays by polar angle,
run the sweep, and swap the first two points when the final `on_obstacle`
equals `first_obstacle` (the Python `==` on `Obstacle | None` is identity,
modelled by index equality).  `none` models the `ZeroDivisionError`
raised on a zero-length ray. -/
def line_of_sight_polygon (len : Vec → ℚ) (self_pos : Vec) (obstacles : List Obstacle) :
    Option (List Vec) :=
  let pos := round_vec self_pos
  let rays := stableSort angLt (ends_of pos obstacles)
  match sweep len pos (indexed obstacles) rays [] none none with
  | none => none
  | some (poly, on_obstacle, first_obstacle) =>
    some (if on_obstacle = first_obstacle then swapFirstTwo poly else poly)

/-- Source `get_sides(width, height)`: the four screen-boundary segments
in the order left, top, right, bottom. -/
def get_sides (width height : ℚ) : List Obstacle :=
  let topleft : Vec := ⟨0, 0⟩
  let topright : Vec := ⟨width, 0⟩
  let botleft : Vec := ⟨0, height⟩
  let botright : Vec := ⟨width, height⟩
  [⟨botleft, topleft⟩, ⟨topleft, topright⟩, ⟨topright, botright⟩, ⟨botright, botleft⟩]

/-- Length oracle for the concrete configurations below: a table of exact
square roots keyed by the squared length (0 outside the table).  Every
theorem that uses it states its correctness on the rays that occur. -/
def sqrtTab (v : Vec) : ℚ :=
  if v.sqLen = 0 then 0
  else if v.sqLen = 1 then 1
  else if v.sqLen = 4 then 2
  else if v.sqLen = 25 then 5
  else if v.sqLen = 250000 then 500
  else if v.sqLen = 360000 then 600
  else if v.sqLen = 640000 then 800
  else if v.sqLen = 1000000 then 1000
  else if v.sqLen = 25 / 1000000000000 then 5 / 1000000
  else 0

/-- Correctness of a length oracle on a list of vectors: it returns the
exact nonnegative Euclidean length of each of them. -/
def len_ok (len : Vec → ℚ) (rays : List Vec) : Prop :=
  ∀ r ∈ rays, 0 ≤ len r ∧ len r * len r = r.sqLen

instance (len : Vec → ℚ) (rays : List Vec) : Decidable (len_ok len rays) :=
  inferInstanceAs (Decidable (∀ r ∈ rays, 0 ≤ len r ∧ len r * len r = r.sqLen))

/-- The four 800x600 screen-boundary segments. -/
def boundary_800_600 : List Obstacle := get_sides 800 600

/-- An integer light position strictly inside the 800x600 boundary whose
four corner rays have the rational length 500 (so that the length oracle
is exact). -/
def center_pos : Vec := ⟨400, 300⟩

/-- The polygon computed for the boundary-only configuration with the
light at `center_pos`: for each corner, in sweep order, the pattern
`far, corner, corner, far` with `far = pos + 9 * (corner - pos)` (the
initial `min_dist` bound `4500 / 500 = 9` is never beaten, because a
corner ray meets the two incident sides only at their shared endpoint). -/
def boundary_poly16 : List Vec :=
  [⟨-3200, -2400⟩, ⟨0, 0⟩, ⟨0, 0⟩, ⟨-3200, -2400⟩,
   ⟨4000, -2400⟩, ⟨800, 0⟩, ⟨800, 0⟩, ⟨4000, -2400⟩,
   ⟨4000, 3000⟩, ⟨800, 600⟩, ⟨800, 600⟩, ⟨4000, 3000⟩,
   ⟨-3200, 3000⟩, ⟨0, 600⟩, ⟨0, 600⟩, ⟨-3200, 3000⟩]

unseal Rat.add Rat.mul Rat.sub Rat.inv in
theorem los_boundary_eval :
    line_of_sight_polygon sqrtTab center_pos boundary_800_600 = some boundary_poly16 := by
  decide

unseal Rat.add Rat.mul Rat.sub Rat.inv in
/-- Counterexample to C3: with exactly the four 800x600 boundary segments
and the light at `(400, 300)` (the oracle is the exact length 500 on all
eight rays, verified by the `len_ok` conjunct), the returned polygon has
16 vertices, not 4, so it is not the four boundary corners in any
order. -/
theorem boundary_polygon_not_four_corners :
    len_ok sqrtTab (ends_of center_pos boundary_800_600) ∧
    (line_of_sight_polygon sqrtTab center_pos boundary_800_600).map List.length =
      some 16 ∧
    (line_of_sight_polygon sqrtTab center_pos boundary_800_600).map List.length ≠
      some 4 := by
  decide

unseal Rat.add Rat.mul Rat.sub Rat.inv in
/-- Amended C3: for the boundary-only configuration (light at
`(400, 300)`), the polygon is the 16-point list `boundary_poly16`: each
boundary corner appears twice, consecutively, and each corner pair is
bracketed by two copies of a point 4500 pixels beyond it along the corner
ray (`min_dist` is never reduced, since each corner ray meets the two
incident sides at their endpoints only); the four corners appear in
consistent sweep order TL, TR, BR, BL but the polygon is not "exactly the
four corner points". -/
theorem boundary_polygon_sixteen_points :
    len_ok sqrtTab (ends_of center_pos boundary_800_600) ∧
    line_of_sight_polygon sqrtTab center_pos boundary_800_600 = some boundary_poly16 :=
  ⟨by decide, los_boundary_eval⟩

unseal Rat.add Rat.mul Rat.sub Rat.inv in
/-- C4 (code bug): when the rounded light position coincides with an
obstacle endpoint, the corresponding ray is the zero vector (it is a
member of the ray list, second conjunct); the source has no guard and
evaluates `4500 / ray.length()` with `ray.length() == 0.0`, raising
`ZeroDivisionError` - modelled by the `none` result of the embedded
function. -/
theorem zero_length_ray_division_by_zero :
    len_ok sqrtTab (ends_of ⟨0, 0⟩ boundary_800_600) ∧
    (⟨0, 0⟩ : Vec) ∈ ends_of ⟨0, 0⟩ boundary_800_600 ∧
    line_of_sight_polygon sqrtTab ⟨0, 0⟩ boundary_800_600 = none := by
  decide

/-- A short obstacle segment strictly inside the boundary, fully visible
from `center_pos`, not touching the light, and in general position: its
endpoint rays `(3, 4)` and `(-3, 4)` have length 5 and are not collinear
with any corner ray. -/
def inner_obstacle : Obstacle := ⟨⟨403, 304⟩, ⟨397, 304⟩⟩

/-- The boundary plus the single interior obstacle (obstacles precede the
sides, as in `GameScene.render`). -/
def scene_with_inner : List Obstacle := inner_obstacle :: boundary_800_600

unseal Rat.add Rat.mul Rat.sub Rat.inv in
/-- Counterexample to C5: adding `inner_obstacle` to the boundary-only
configuration takes the vertex count from 16 to 20 - an increase of 4,
not 2. -/
theorem inner_obstacle_adds_four_not_two :
    len_ok sqrtTab (ends_of center_pos scene_with_inner) ∧
    (line_of_sight_polygon sqrtTab center_pos scene_with_inner).map List.length =
      some 20 ∧
    (line_of_sight_polygon sqrtTab center_pos boundary_800_600).map List.length =
      some 16 ∧
    (line_of_sight_polygon sqrtTab center_pos scene_with_inner).map List.length ≠
      (line_of_sight_polygon sqrtTab center_pos boundary_800_600).map
        (fun l => l.length + 2) := by
  decide

unseal Rat.add Rat.mul Rat.sub Rat.inv in
/-- Amended C5: adding one obstacle segment strictly inside the boundary,
fully visible from the light and not touching it (nor aligned with any
existing endpoint ray), increases the vertex count by exactly 4: each of
its two endpoint rays emits a near silhouette point and a far shadow
point. -/
theorem inner_obstacle_adds_four :
    len_ok sqrtTab (ends_of center_pos scene_with_inner) ∧
    (line_of_sight_polygon sqrtTab center_pos scene_with_inner).map List.length =
      (line_of_sight_polygon sqrtTab center_pos boundary_800_600).map
        (fun l => l.length + 4) := by
  decide

/-- Membership of a point on a closed segment. -/
def on_segment (a b p : Vec) : Prop := ∃ t : ℚ, 0 ≤ t ∧ t ≤ 1 ∧ p = a + t • (b - a)

/-- Edge `i` of a closed polygon (the edge from the last point back to
the first included). -/
def poly_edge (poly : List Vec) (i : ℕ) : Vec × Vec :=
  (poly.getD i ⟨0, 0⟩, poly.getD ((i + 1) % poly.length) ⟨0, 0⟩)

/-- Non-adjacency of two edge indices of an `n`-gon. -/
def non_adjacent (n i j : ℕ) : Prop :=
  i < n ∧ j < n ∧ i ≠ j ∧ (i + 1) % n ≠ j ∧ (j + 1) % n ≠ i

instance (n i j : ℕ) : Decidable (non_adjacent n i j) :=
  inferInstanceAs (Decidable (i < n ∧ j < n ∧ i ≠ j ∧ (i + 1) % n ≠ j ∧ (j + 1) % n ≠ i))

/-- The claim's notion of a simple closed curve: no two non-adjacent
edges (the implicit closing edge included) share a point. -/
def simple_polygon (poly : List Vec) : Prop :=
  ∀ i j, non_adjacent poly.length i j →
    ¬ ∃ p, on_segment (poly_edge poly i).1 (poly_edge poly i).2 p ∧
      on_segment (poly_edge poly j).1 (poly_edge poly j).2 p

unseal Rat.add Rat.mul Rat.sub Rat.inv in
/-- Counterexample to C6: the polygon of the boundary-only configuration
(zero interior obstacles, trivially non-overlapping, plus the mandatory
boundary) is not simple: edges 0 and 2 are the same out-and-back spike
segment traversed in opposite directions, and in particular both contain
the corner `(0, 0)`. -/
theorem visibility_polygon_not_always_simple_cex :
    ¬ ∀ P, line_of_sight_polygon sqrtTab center_pos boundary_800_600 = some P →
      simple_polygon P := by
  intro h
  have hs := h boundary_poly16 los_boundary_eval
  refine hs 0 2 (by decide) ⟨⟨0, 0⟩, ⟨1, by norm_num, by norm_num, by decide⟩,
    ⟨0, by norm_num, by norm_num, by decide⟩⟩

unseal Rat.add Rat.mul Rat.sub Rat.inv in
/-- Amended C6: the polygon returned by `line_of_sight_polygon` need not
be a simple closed curve: already for the mandatory boundary alone there
is a returned polygon with two non-adjacent edges sharing a point (each
silhouette spike retraces the same segment). -/
theorem visibility_polygon_not_always_simple :
    ∃ P, line_of_sight_polygon sqrtTab center_pos boundary_800_600 = some P ∧
      ∃ i j, non_adjacent P.length i j ∧
        ∃ p, on_segment (poly_edge P i).1 (poly_edge P i).2 p ∧
          on_segment (poly_edge P j).1 (poly_edge P j).2 p :=
  ⟨boundary_poly16, los_boundary_eval, 0, 2, by decide,
    ⟨0, 0⟩, ⟨1, by norm_num, by norm_num, by decide⟩,
    ⟨0, by norm_num, by norm_num, by decide⟩⟩

/-- The claim's reading of the seam correction (refinement comparison for
C7, following the claim's words): swap the first two points exactly when
the final `on_obstacle` equals the `on_obstacle` value recorded after
processing the first ray.  The source instead keeps re-assigning
`first_obstacle` while it is still `None`. -/
def first_ray_seam_polygon (len : Vec → ℚ) (self_pos : Vec) (obstacles : List Obstacle) :
    Option (List Vec) :=
  let pos := round_vec self_pos
  let rays := stableSort angLt (ends_of pos obstacles)
  match sweep len pos (indexed obstacles) rays [] none none with
  | none => none
  | some (poly, on_obstacle, _) =>
    match rays with
    | [] => some (if on_obstacle = none then swapFirstTwo poly else poly)
    | ray0 :: _ =>
      some (if on_obstacle = (ray_step len pos (indexed obstacles) ray0 none).2 then
        swapFirstTwo poly else poly)

/-- A tiny obstacle near the x-axis: every ray (its own endpoint rays
included) sees it only with a cross-product denominator below the
parallelism epsilon, so it contributes rays but never an intersection.
Its endpoint rays have the rational lengths 1 and 5/1000000. -/
def tiny_obstacle : Obstacle := ⟨⟨1, 0⟩, ⟨1 / 250000, 3 / 1000000⟩⟩

/-- An ordinary obstacle whose endpoint rays (lengths 5 and 5) are hit as
obstacle ends. -/
def upper_obstacle : Obstacle := ⟨⟨3, 4⟩, ⟨0, 5⟩⟩

/-- The C7 configuration: light at the origin, rays sorted as
`(1,0), (1/250000, 3/1000000), (3,4), (0,5)`. -/
def c7_obstacles : List Obstacle := [tiny_obstacle, upper_obstacle]

/-- The raw sweep output for `c7_obstacles`: the first two rays hit
nothing (two distinct far points), the third opens `upper_obstacle`
(recording `first_obstacle` only there, on ray three), the fourth closes
it and resets `on_obstacle` to `None`. -/
def c7_raw_poly : List Vec :=
  [⟨4500, 0⟩, ⟨3600, 2700⟩, ⟨2700, 3600⟩, ⟨3, 4⟩, ⟨0, 5⟩, ⟨0, 4500⟩]

unseal Rat.add Rat.mul Rat.sub Rat.inv in
/-- Counterexample to C7: on `c7_obstacles` the `on_obstacle` value after
the first ray is `None` and the final `on_obstacle` is `None`, so the
claim's rule would swap the first two (distinct) points; but
`first_obstacle` was recorded as `upper_obstacle` on the third ray, so
the source does not swap.  The two readings produce different polygons. -/
theorem seam_swap_not_first_ray_cex :
    len_ok sqrtTab (ends_of ⟨0, 0⟩ c7_obstacles) ∧
    line_of_sight_polygon sqrtTab ⟨0, 0⟩ c7_obstacles = some c7_raw_poly ∧
    first_ray_seam_polygon sqrtTab ⟨0, 0⟩ c7_obstacles = some (swapFirstTwo c7_raw_poly) ∧
    line_of_sight_polygon sqrtTab ⟨0, 0⟩ c7_obstacles ≠
      first_ray_seam_polygon sqrtTab ⟨0, 0⟩ c7_obstacles := by
  decide

/-- The per-ray trace of `on_obstacle` values over the sweep (`none` when
a zero-length ray aborts the sweep, as in `sweep`). -/
def on_trace (len : Vec → ℚ) (pos : Vec) (lines : List (ℕ × Obstacle)) :
    List Vec → Option ℕ → Option (List (Option ℕ))
  | [], _ => some []
  | ray :: rest, on_obstacle =>
    if len ray = 0 then none
    else
      match on_trace len pos lines rest (ray_step len pos lines ray on_obstacle).2 with
      | none => none
      | some tr => some ((ray_step len pos lines ray on_obstacle).2 :: tr)

/-- The first non-`none` element of a list of optional indices. -/
def firstSome (l : List (Option ℕ)) : Option ℕ := (l.filterMap id).head?

theorem sweep_trace (len : Vec → ℚ) (pos : Vec) (lines : List (ℕ × Obstacle)) :
    ∀ (rays poly : List Vec) (on_obstacle first_obstacle : Option ℕ)
      (raw : List Vec) (fin fst : Option ℕ),
      sweep len pos lines rays poly on_obstacle first_obstacle = some (raw, fin, fst) →
      ∃ tr, on_trace len pos lines rays on_obstacle = some tr ∧
        fin = tr.getLastD on_obstacle ∧
        fst = (if first_obstacle = none then firstSome tr else first_obstacle) := by
  intro rays
  induction rays with
  | nil =>
    intro poly on_obstacle first_obstacle raw fin fst h
    simp only [sweep, Option.some.injEq, Prod.mk.injEq] at h
    obtain ⟨-, hfin, hfst⟩ := h
    refine ⟨[], rfl, by simp [← hfin], ?_⟩
    rcases first_obstacle with _ | i
    · simp [← hfst, firstSome]
    · simp [← hfst]
  | cons r rest ih =>
    intro poly on_obstacle first_obstacle raw fin fst h
    simp only [sweep] at h
    by_cases hz : len r = 0
    · rw [if_pos hz] at h
      exact absurd h (by simp)
    · rw [if_neg hz] at h
      obtain ⟨tr, htr, hfin, hfst⟩ := ih _ _ _ _ _ _ h
      refine ⟨(ray_step len pos lines r on_obstacle).2 :: tr, ?_, ?_, ?_⟩
      · rw [on_trace, if_neg hz, htr]
      · rw [hfin, List.getLastD_cons]
      · rw [hfst]
        rcases first_obstacle with _ | i
        · rcases hstep : (ray_step len pos lines r on_obstacle).2 with _ | j
          · simp [firstSome]
          · simp [firstSome]
        · simp

/-- Amended C7: after the sweep, the first two accumulated points are
swapped exactly when the final `on_obstacle` equals `first_obstacle`,
where `first_obstacle` is the first non-`None` `on_obstacle` value
produced over the whole sweep (`None` if every ray leaves it `None`) -
not necessarily the value recorded after the first ray. -/
theorem seam_swap_first_nonnone (len : Vec → ℚ) (self_pos : Vec)
    (obstacles : List Obstacle) (raw : List Vec) (fin fst : Option ℕ)
    (h : sweep len (round_vec self_pos) (indexed obstacles)
        (stableSort angLt (ends_of (round_vec self_pos) obstacles)) [] none none =
      some (raw, fin, fst)) :
    ∃ tr, on_trace len (round_vec self_pos) (indexed obstacles)
        (stableSort angLt (ends_of (round_vec self_pos) obstacles)) none = some tr ∧
      fst = firstSome tr ∧ fin = tr.getLastD none ∧
      line_of_sight_polygon len self_pos obstacles =
        some (if fin = fst then swapFirstTwo raw else raw) := by
  obtain ⟨tr, htr, hfin, hfst⟩ :=
    sweep_trace len (round_vec self_pos) (indexed obstacles) _ _ _ _ _ _ _ h
  refine ⟨tr, htr, by simpa using hfst, hfin, ?_⟩
  simp only [line_of_sight_polygon]
  rw [h]

unseal Rat.add Rat.mul Rat.sub Rat.inv in
/-- Witness for the amended C7 at the `c7_obstacles` configuration:
`first_obstacle` ends up as obstacle index 1 (recorded on the third ray),
the final `on_obstacle` is `None`, and no swap happens. -/
theorem seam_swap_first_nonnone_witness :
    ∃ tr, on_trace sqrtTab (round_vec ⟨0, 0⟩) (indexed c7_obstacles)
        (stableSort angLt (ends_of (round_vec ⟨0, 0⟩) c7_obstacles)) none = some tr ∧
      (some 1 : Option ℕ) = firstSome tr ∧ (none : Option ℕ) = tr.getLastD none ∧
      line_of_sight_polygon sqrtTab ⟨0, 0⟩ c7_obstacles =
        some (if (none : Option ℕ) = some 1 then swapFirstTwo c7_raw_poly
          else c7_raw_poly) :=
  seam_swap_first_nonnone sqrtTab ⟨0, 0⟩ c7_obstacles c7_raw_poly none (some 1) (by decide)

/-- A goal rectangle (pygame `Rect(left, top, width, height)`) together
with its `activated` flag (`Goal` in the source). -/
structure Goal where
  left : ℚ
  top : ℚ
  width : ℚ
  height : ℚ
  activated : Bool
deriving DecidableEq

/-- pygame `Rect.collidepoint(p)`: inclusive on the left/top edges,
exclusive on the right/bottom edges. -/
def Goal.collidepoint (g : Goal) (p : Vec) : Bool :=
  decide (g.left ≤ p.x) && decide (p.x < g.left + g.width) &&
    decide (g.top ≤ p.y) && decide (p.y < g.top + g.height)

/-- The goal of the game scene, `Goal(690, 540, 100, 50)` (the arguments
are passed positionally to `pygame.Rect(left, top, width, height)`),
initially not activated. -/
def scene_goal : Goal := ⟨690, 540, 100, 50, false⟩

/-- The goal loop of `GameScene.update`: each goal whose rectangle
contains the player position has `activated` set in place; as soon as
every goal is activated the method returns early.  `done` is the already
processed prefix of the goal list. -/
def goal_loop (p : Vec) (done : List Goal) : List Goal → List Goal
  | [] => done
  | g :: rest =>
    if g.collidepoint p then
      if (done ++ { g with activated := true } :: rest).all (fun x => x.activated) then
        done ++ { g with activated := true } :: rest
      else goal_loop p (done ++ [{ g with activated := true }]) rest
    else goal_loop p (done ++ [g]) rest

/-- The goal part of one `GameScene.update` frame. -/
def update_goals (p : Vec) (goals : List Goal) : List Goal := goal_loop p [] goals

/-- A session: one goal update per frame, for the player positions `ps`
in order. -/
def run_updates (ps : List Vec) (goals : List Goal) : List Goal :=
  ps.foldl (fun gs p => update_goals p gs) goals

theorem goal_set_activated_of_activated (g : Goal) (h : g.activated = true) :
    ({ g with activated := true } : Goal) = g := by
  cases g
  simp_all

theorem goal_step_eq (p : Vec) (g : Goal) :
    (if g.collidepoint p then ({ g with activated := true } : Goal) else g) =
      { g with activated := g.activated || g.collidepoint p } := by
  cases g with
  | mk l t w h a =>
    by_cases hc : Goal.collidepoint ⟨l, t, w, h, a⟩ p
    · simp [hc]
    · simp [hc]

theorem goal_loop_map (p : Vec) :
    ∀ (rest done : List Goal),
      goal_loop p done rest =
        done ++ rest.map
          (fun g => if g.collidepoint p then { g with activated := true } else g) := by
  intro rest
  induction rest with
  | nil =>
    intro done
    simp [goal_loop]
  | cons g gs ih =>
    intro done
    rw [goal_loop]
    by_cases hc : g.collidepoint p
    · rw [if_pos hc]
      by_cases hall :
          (done ++ { g with activated := true } :: gs).all (fun x => x.activated)
      · rw [if_pos hall]
        have hg : ∀ x ∈ gs,
            (if x.collidepoint p then ({ x with activated := true } : Goal) else x) = x := by
          intro x hx
          have hx2 : x.activated = true := by
            have := (List.all_eq_true.mp hall) x (by simp [hx])
            simpa using this
          by_cases hxc : x.collidepoint p
          · rw [if_pos hxc]
            exact goal_set_activated_of_activated x hx2
          · rw [if_neg hxc]
        have hmap : gs.map
            (fun x => if x.collidepoint p then ({ x with activated := true } : Goal) else x) =
            gs := (List.map_congr_left hg).trans (List.map_id gs)
        rw [List.map_cons, hmap, if_pos hc]
      · rw [if_neg hall, ih]
        simp [hc]
    · rw [if_neg hc, ih]
      simp [hc]

theorem update_goals_map (p : Vec) (goals : List Goal) :
    update_goals p goals =
      goals.map (fun g => { g with activated := g.activated || g.collidepoint p }) := by
  rw [update_goals, goal_loop_map]
  simp only [List.nil_append]
  exact List.map_congr_left fun g _ => goal_step_eq p g

theorem goal_collidepoint_irrelevant_activated
    {l t w h : ℚ} {a b : Bool} {ps : List Vec} :
    (ps.any fun p => Goal.collidepoint ⟨l, t, w, h, a⟩ p) =
      (ps.any fun p => Goal.collidepoint ⟨l, t, w, h, b⟩ p) := rfl

theorem run_updates_map (ps : List Vec) :
    ∀ goals : List Goal,
      run_updates ps goals =
        goals.map (fun g =>
          { g with activated := g.activated || ps.any (fun p => g.collidepoint p) }) := by
  induction ps with
  | nil =>
    intro goals
    simp [run_updates]
  | cons p ps ih =>
    intro goals
    have h1 : run_updates (p :: ps) goals = run_updates ps (update_goals p goals) := by
      simp [run_updates]
    rw [h1, ih, update_goals_map, List.map_map]
    refine List.map_congr_left ?_
    intro g hg
    simp only [Function.comp]
    cases g with
    | mk l t w h a =>
      simp only [List.any_cons]
      congr 1
      rw [goal_collidepoint_irrelevant_activated]
      rw [Bool.or_assoc]

/-- Claim C8: over any session (any sequence of per-frame player
positions), a goal's `activated` flag after the updates is its initial
flag OR-ed with "some frame had the player inside the rectangle": it is
set on the first frame the player position lies in the rectangle and is
never reset afterwards, even if the player leaves. -/
theorem goal_latch (ps : List Vec) (goals : List Goal) (i : ℕ)
    (h : i < goals.length) :
    (run_updates ps goals).length = goals.length ∧
    ((run_updates ps goals).getD i scene_goal).activated =
      ((goals.getD i scene_goal).activated ||
        ps.any (fun p => (goals.getD i scene_goal).collidepoint p)) := by
  rw [run_updates_map]
  constructor
  · simp
  · have hget : goals[i]? = some goals[i] := List.getElem?_eq_getElem h
    rw [List.getD_eq_getElem?_getD, List.getElem?_map, hget,
      List.getD_eq_getElem?_getD, hget]
    rfl

unseal Rat.add Rat.mul Rat.sub Rat.inv in
/-- Witness for C8: the player enters the scene goal rectangle on frame
one and leaves on frame two; the flag is set and stays set. -/
theorem goal_latch_witness :
    0 < ([scene_goal] : List Goal).length ∧
    ((run_updates [⟨700, 550⟩, ⟨0, 0⟩] [scene_goal]).length =
        ([scene_goal] : List Goal).length ∧
      ((run_updates [⟨700, 550⟩, ⟨0, 0⟩] [scene_goal]).getD 0 scene_goal).activated =
        ((([scene_goal] : List Goal).getD 0 scene_goal).activated ||
          [(⟨700, 550⟩ : Vec), ⟨0, 0⟩].any
            (fun p => (([scene_goal] : List Goal).getD 0 scene_goal).collidepoint p))) ∧
    ((run_updates [⟨700, 550⟩, ⟨0, 0⟩] [scene_goal]).getD 0 scene_goal).activated = true :=
  ⟨by decide, goal_latch [⟨700, 550⟩, ⟨0, 0⟩] [scene_goal] 0 (by decide), by decide⟩
